import Mathlib

/-!
# vpc-api-server: fleet registry and bootstrap coordinator

A shallow embedding of `src/vpc-api-server/main.go`.

* Go `string` values are Lean `String`s; `*string` fields are `Option String`.
* The registry `map[string]NodeInfo` is an association list with unique keys
  (`AList`); `m[k] = v` is `AList.insert`, `v, ok := m[k]` is `AList.lookup`.
* A handler is a function from the application state and the request parameters
  to the HTTP response and the next application state.  The mutex is not part of
  the sequential model: every handler body is one atomic step.
* `range` over a Go map yields the entries in an unspecified order, so the two
  handlers that iterate take the iteration sequence as an argument; any
  permutation of the stored descriptors is a legal sequence (`IsRange`).
* Calls that leave the process (the credential issuer, the mesh metadata
  service, the environment) are arguments: the outcome of `generatePreAuthKey`,
  the answers of the metadata service, the value of an environment variable.
-/

namespace VpcApiServer

/-! ## Data model (main.go:20-49) -/

/-- One registry entry, `NodeInfo` (main.go:25-31). -/
structure NodeInfo where
  UUID : String
  Name : String
  NodeType : String
  TailscaleIP : Option String
  ActualHostname : Option String
deriving DecidableEq

/-- The body of a successful registration, `BootstrapResponse` (main.go:33-37). -/
structure BootstrapResponse where
  PreAuthKey : String
  SharedKey : String
  ServerUrl : String
deriving DecidableEq

/-- Startup configuration, `Config` (main.go:20-23). -/
structure Config where
  AllowedApps : List String
  AllowedNodeTypes : List String
deriving DecidableEq

/-- The Go map `map[string]NodeInfo`: finitely many entries, at most one per key. -/
abbrev NodeMap := AList (fun _ : String => NodeInfo)

/-- Process state shared by the handlers, `AppState` (main.go:43-49), without the mutex. -/
structure AppState where
  config : Config
  nodes : NodeMap
  sharedKey : String
  ServerUrl : String

/-- The JSON (or text) payloads the handlers write. -/
inductive Body where
  | error (msg : String)
  | bootstrap (r : BootstrapResponse)
  | status (s : String)
  | etcdHosts (etcd_hosts : List String) (count : Nat)
  | nodeList (nodes : List NodeInfo) (count : Nat)
  | text (s : String)
deriving DecidableEq

/-- An HTTP response: status code and payload. -/
structure Response where
  code : Nat
  body : Body
deriving DecidableEq

/-- Outcome of the middleware: `c.Next()` or an aborted request with its response. -/
inductive Admission where
  | next
  | abort (r : Response)
deriving DecidableEq

/-! ## Go standard library functions used by the source -/

namespace unicode

/-- Go `unicode.IsSpace`: the Latin-1 cases and the `White_Space` table. -/
def IsSpace (r : Char) : Bool :=
  let n := r.toNat
  (0x09 ≤ n && n ≤ 0x0D) || n == 0x20 || n == 0x85 || n == 0xA0 || n == 0x1680 ||
  (0x2000 ≤ n && n ≤ 0x200A) || n == 0x2028 || n == 0x2029 || n == 0x202F ||
  n == 0x205F || n == 0x3000

end unicode

namespace strings

/-- Pieces of a character sequence between occurrences of `sep`. -/
def splitChars (sep : Char) : List Char → List (List Char)
  | [] => [[]]
  | c :: cs =>
    if c = sep then [] :: splitChars sep cs
    else
      match splitChars sep cs with
      | [] => [[c]]
      | p :: ps => (c :: p) :: ps

/-- Go `strings.Split(s, sep)` for a separator of one character. -/
def Split (s : String) (sep : Char) : List String :=
  (splitChars sep s.data).map String.mk

/-- Go `strings.TrimSpace`: leading and trailing white space removed. -/
def TrimSpace (s : String) : String :=
  String.mk ((s.data.dropWhile unicode.IsSpace).reverse.dropWhile unicode.IsSpace).reverse

end strings

/-! ## Allow-list (main.go:133-157) and the middleware (main.go:374-394) -/

/-- The loop of `parseAllowedApps` (main.go:142-146): trimmed non-empty pieces are appended. -/
def parseAllowedAppsLoop : List String → List String → List String
  | [], result => result
  | app :: apps, result =>
    let trimmed := strings.TrimSpace app
    if trimmed ≠ "" then parseAllowedAppsLoop apps (result ++ [trimmed])
    else parseAllowedAppsLoop apps result

/-- Translation of `parseAllowedApps` (main.go:133-148). -/
def parseAllowedApps (allowedApps : String) : List String :=
  if allowedApps = "" then []
  else if allowedApps = "any" then ["any"]
  else parseAllowedAppsLoop (strings.Split allowedApps ',') []

/-- The loop of `isAppAllowed` (main.go:151-156) over the configured list. -/
def isAppAllowedLoop (appID : String) : List String → Bool
  | [] => false
  | allowed :: rest =>
    if allowed = "any" ∨ allowed = appID then true else isAppAllowedLoop appID rest

/-- Translation of `(*AppState).isAppAllowed` (main.go:150-157). -/
def isAppAllowed (s : AppState) (appID : String) : Bool :=
  isAppAllowedLoop appID s.config.AllowedApps

/-- The state `main` builds before serving (main.go:353-368): parsed allow-list, empty map. -/
def newAppState (allowedApps sharedKey serverUrl : String) : AppState :=
  { config := { AllowedApps := parseAllowedApps allowedApps,
                AllowedNodeTypes := ["mongodb", "app"] },
    nodes := ∅,
    sharedKey := sharedKey,
    ServerUrl := serverUrl }

/-- The middleware installed with `r.Use` (main.go:374-394); `appID` is the value of the
header `x-dstack-app-id`, empty when the header is missing. -/
def authMiddleware (state : AppState) (path appID : String) : Admission :=
  if path = "/health" then .next
  else if appID = "" then .abort ⟨401, .error "Unauthorized"⟩
  else if !isAppAllowed state appID then .abort ⟨403, .error "Forbidden"⟩
  else .next

/-! ## Handlers (main.go:396-527) -/

/-- Handler of `GET /api/register` (main.go:396-435).  `mint` is the outcome of
`generatePreAuthKey()`, which the handler calls once the id is known to be non-empty. -/
def registerHandler (state : AppState) (instanceUUID nodeName : String)
    (mint : Except String String) : Response × AppState :=
  if instanceUUID = "" then
    (⟨400, .error "Missing required parameters"⟩, state)
  else
    match mint with
    | .error _ => (⟨500, .error "Failed to generate pre-auth key"⟩, state)
    | .ok preAuthKey =>
      let nodeName := if nodeName = "" then "node-" ++ instanceUUID else nodeName
      let nodeInfo : NodeInfo :=
        { UUID := instanceUUID, Name := nodeName, NodeType := "",
          TailscaleIP := none, ActualHostname := none }
      let response : BootstrapResponse :=
        { PreAuthKey := preAuthKey, SharedKey := state.sharedKey, ServerUrl := state.ServerUrl }
      (⟨200, .bootstrap response⟩, { state with nodes := state.nodes.insert instanceUUID nodeInfo })

/-- Handler of `POST /api/nodes/update` (main.go:438-486). -/
def updateHandler (state : AppState) (uuid nodeType tailscaleIP hostname : String) :
    Response × AppState :=
  if uuid = "" then
    (⟨400, .error "uuid parameter is required"⟩, state)
  else
    match state.nodes.lookup uuid with
    | some node =>
      let node := if nodeType ≠ "" then { node with NodeType := nodeType } else node
      let node := if tailscaleIP ≠ "" then { node with TailscaleIP := some tailscaleIP } else node
      let node := if hostname ≠ "" then { node with ActualHostname := some hostname } else node
      (⟨200, .status "updated"⟩, { state with nodes := state.nodes.insert uuid node })
    | none =>
      let node : NodeInfo :=
        { UUID := uuid, Name := uuid, NodeType := nodeType,
          TailscaleIP := none, ActualHostname := none }
      let node := if tailscaleIP ≠ "" then { node with TailscaleIP := some tailscaleIP } else node
      let node := if hostname ≠ "" then { node with ActualHostname := some hostname } else node
      (⟨200, .status "created"⟩, { state with nodes := state.nodes.insert uuid node })

/-- The descriptors stored in the map, in the order of the association list. -/
def storedNodes (m : NodeMap) : List NodeInfo :=
  m.entries.map Sigma.snd

/-- A sequence that `for _, node := range m` may yield: the stored descriptors in some order. -/
def IsRange (m : NodeMap) (order : List NodeInfo) : Prop :=
  order.Perm (storedNodes m)

/-- The nodes discovery has to report: role exactly `etcd` and a present, non-empty hostname. -/
def isEtcdWithHostname (node : NodeInfo) : Bool :=
  node.NodeType == "etcd" &&
    (match node.ActualHostname with
     | none => false
     | some h => h != "")

/-- The entry discovery has to report for such a node: its hostname followed by `:2379`. -/
def etcdHost (node : NodeInfo) : String :=
  node.ActualHostname.getD "" ++ ":2379"

/-- The loop of the discovery handler (main.go:494-499) over an iteration sequence. -/
def discoverEtcdLoop : List NodeInfo → List String → List String
  | [], etcdNodes => etcdNodes
  | node :: rest, etcdNodes =>
    if node.NodeType = "etcd" then
      match node.ActualHostname with
      | some h =>
        if h ≠ "" then discoverEtcdLoop rest (etcdNodes ++ [h ++ ":2379"])
        else discoverEtcdLoop rest etcdNodes
      | none => discoverEtcdLoop rest etcdNodes
    else discoverEtcdLoop rest etcdNodes

/-- Handler of `GET /api/discover/etcd` (main.go:489-511); `order` is what `range` yields. -/
def discoverEtcdHandler (order : List NodeInfo) : Response :=
  let etcdNodes := discoverEtcdLoop order []
  if etcdNodes.length = 0 then ⟨404, .error "No etcd nodes found"⟩
  else ⟨200, .etcdHosts etcdNodes etcdNodes.length⟩

/-- The loop of the listing handler (main.go:519-521). -/
def listNodesLoop : List NodeInfo → List NodeInfo → List NodeInfo
  | [], nodes => nodes
  | node :: rest, nodes => listNodesLoop rest (nodes ++ [node])

/-- Handler of `GET /api/nodes` (main.go:514-527); `order` is what `range` yields. -/
def listNodesHandler (order : List NodeInfo) : Response :=
  let nodes := listNodesLoop order []
  ⟨200, .nodeList nodes nodes.length⟩

/-! ## Control-plane URL (main.go:62-131) -/

/-- The two endpoints of the mesh metadata service the locator queries. -/
inductive MeshQuery where
  | info
  | gateway
deriving DecidableEq

/-- The mesh metadata service as a sequence of answers: `info k` is the outcome of
`getAppIDFromDstackMesh()` and `gateway k` that of `getGatewayDomainFromDstackMesh()` when the
call is the query number `k` (counted from zero) of the run. -/
structure Mesh where
  info : Nat → Except String String
  gateway : Nat → Except String String

/-- The retry loop of `buildHeadscaleURL` (main.go:110-117).  `remaining` is `30 - i`; the
result is the final `appID`, the final `err` (none for nil) and the number of queries made. -/
def retryLoop (mesh : Mesh) : (remaining i : Nat) → (appID : String) → (err : Option String) →
    String × Option String × Nat
  | 0, i, appID, err => (appID, err, i)
  | remaining + 1, i, _, _ =>
    match mesh.info i with
    | .ok appID => (appID, none, i + 1)
    | .error e => retryLoop mesh remaining (i + 1) "" (some e)

/-- Translation of `buildHeadscaleURL` (main.go:100-131).  `envUrl` is the value of
`VPC_SERVER_URL` (empty when unset).  The result is the URL together with the queries sent to
the metadata service, in order. -/
def buildHeadscaleURL (envUrl : String) (mesh : Mesh) : String × List MeshQuery :=
  if envUrl ≠ "" then (envUrl, [])
  else
    match retryLoop mesh 30 0 "" none with
    | (_, some _, made) => ("http://headscale:8080", List.replicate made MeshQuery.info)
    | (appID, none, made) =>
      match mesh.gateway made with
      | .error _ =>
        ("http://headscale:8080", List.replicate made MeshQuery.info ++ [MeshQuery.gateway])
      | .ok gatewayDomain =>
        ("https://" ++ appID ++ "-8080." ++ gatewayDomain,
          List.replicate made MeshQuery.info ++ [MeshQuery.gateway])

/-! ## Sequences of calls -/

/-- A state-changing request: the parameters of a register or of an update call. -/
inductive Call where
  | register (nodeName : String) (mint : Except String String)
  | update (nodeType tailscaleIP hostname : String)

/-- The state after one call on node id `u`. -/
def applyCall (u : String) (state : AppState) : Call → AppState
  | .register nodeName mint => (registerHandler state u nodeName mint).2
  | .update nodeType tailscaleIP hostname =>
    (updateHandler state u nodeType tailscaleIP hostname).2

/-- The state after a sequence of calls on node id `u`, first call first. -/
def runCalls (u : String) (state : AppState) (calls : List Call) : AppState :=
  calls.foldl (applyCall u) state

/-- States the handlers can produce from `init` by register and update calls on any ids. -/
inductive Reachable (init : AppState) : AppState → Prop where
  | start : Reachable init init
  | register (state : AppState) (instanceUUID nodeName : String) (mint : Except String String) :
      Reachable init state →
      Reachable init (registerHandler state instanceUUID nodeName mint).2
  | update (state : AppState) (uuid nodeType tailscaleIP hostname : String) :
      Reachable init state →
      Reachable init (updateHandler state uuid nodeType tailscaleIP hostname).2

/-! ## Vocabulary of the stated properties -/

/-- Every stored descriptor carries the key it is stored under. -/
def KeysMatch (m : NodeMap) : Prop :=
  ∀ (k : String) (node : NodeInfo), m.lookup k = some node → node.UUID = k

/-- A register call that gets past the id check and whose mint succeeds. -/
def Call.isSuccessfulRegister : Call → Bool
  | .register _ (.ok _) => true
  | _ => false

/-- An update call. -/
def Call.isUpdate : Call → Bool
  | .update _ _ _ => true
  | _ => false

/-- The role parameters of the update calls of a sequence, in order. -/
def suppliedRoles : List Call → List String
  | [] => []
  | .update nodeType _ _ :: rest => nodeType :: suppliedRoles rest
  | .register _ _ :: rest => suppliedRoles rest

/-- The overlay-address parameters of the update calls of a sequence, in order. -/
def suppliedAddresses : List Call → List String
  | [] => []
  | .update _ tailscaleIP _ :: rest => tailscaleIP :: suppliedAddresses rest
  | .register _ _ :: rest => suppliedAddresses rest

/-- The hostname parameters of the update calls of a sequence, in order. -/
def suppliedHostnames : List Call → List String
  | [] => []
  | .update _ _ hostname :: rest => hostname :: suppliedHostnames rest
  | .register _ _ :: rest => suppliedHostnames rest

/-- The last non-empty value of a list of parameters, if there is one. -/
def lastSupplied : List String → Option String
  | [] => none
  | x :: xs =>
    match lastSupplied xs with
    | some y => some y
    | none => if x ≠ "" then some x else none

/-- The name given by the first successful registration that supplied one, if there is one. -/
def firstSuppliedName : List Call → Option String
  | [] => none
  | .register nodeName (.ok _) :: rest =>
    if nodeName ≠ "" then some nodeName else firstSuppliedName rest
  | _ :: rest => firstSuppliedName rest

/-- The final-state law in the words of the spec, for the calls `calls` on node id `u` from
`state`: the final name is the one of the first registration that supplied one (or `node-`
followed by the id), and role, address and hostname are those of the last update that supplied
a non-empty value. -/
def FinalStateLawAsStated (u : String) (state : AppState) (calls : List Call) : Prop :=
  ((runCalls u state calls).nodes.lookup u).map NodeInfo.Name =
      some ((firstSuppliedName calls).getD ("node-" ++ u)) ∧
  ((runCalls u state calls).nodes.lookup u).map NodeInfo.NodeType =
      some ((lastSupplied (suppliedRoles calls)).getD "") ∧
  ((runCalls u state calls).nodes.lookup u).map NodeInfo.TailscaleIP =
      some (lastSupplied (suppliedAddresses calls)) ∧
  ((runCalls u state calls).nodes.lookup u).map NodeInfo.ActualHostname =
      some (lastSupplied (suppliedHostnames calls))

/-! ## Concrete scenario states (spec section 8) -/

/-- The state at startup in the scenario: allow-list `any`, secret `S`, URL `https://cp.example`. -/
def scenarioStart : AppState :=
  newAppState "any" "S" "https://cp.example"

/-- The scenario state after `GET /api/register?instance_id=abc123&node_name=worker1`. -/
def scenarioRegistered : AppState :=
  (registerHandler scenarioStart "abc123" "worker1" (.ok "k-1")).2

/-- The scenario state after `POST /api/nodes/update?uuid=abc123&node_type=etcd&hostname=h1`. -/
def scenarioUpdated : AppState :=
  (updateHandler scenarioRegistered "abc123" "etcd" "" "h1").2

/-- The scenario state after a further update that reports the overlay address. -/
def scenarioJoined : AppState :=
  (updateHandler scenarioUpdated "abc123" "" "100.64.0.5" "").2

/-! ## Basic facts about the handlers -/

theorem registerHandler_empty (state : AppState) (nodeName : String)
    (mint : Except String String) :
    registerHandler state "" nodeName mint =
      (⟨400, .error "Missing required parameters"⟩, state) := by
  simp [registerHandler]

theorem registerHandler_error (state : AppState) (instanceUUID nodeName e : String)
    (h : instanceUUID ≠ "") :
    registerHandler state instanceUUID nodeName (.error e) =
      (⟨500, .error "Failed to generate pre-auth key"⟩, state) := by
  simp [registerHandler, h]

theorem registerHandler_ok (state : AppState) (instanceUUID nodeName key : String)
    (h : instanceUUID ≠ "") :
    registerHandler state instanceUUID nodeName (.ok key) =
      (⟨200, .bootstrap ⟨key, state.sharedKey, state.ServerUrl⟩⟩,
       { state with
         nodes := state.nodes.insert instanceUUID
           { UUID := instanceUUID,
             Name := if nodeName = "" then "node-" ++ instanceUUID else nodeName,
             NodeType := "", TailscaleIP := none, ActualHostname := none } }) := by
  simp [registerHandler, h]

theorem updateHandler_empty (state : AppState) (nodeType tailscaleIP hostname : String) :
    updateHandler state "" nodeType tailscaleIP hostname =
      (⟨400, .error "uuid parameter is required"⟩, state) := by
  simp [updateHandler]

theorem updateHandler_existing (state : AppState) (uuid nodeType tailscaleIP hostname : String)
    (node : NodeInfo) (h : uuid ≠ "") (hnode : state.nodes.lookup uuid = some node) :
    updateHandler state uuid nodeType tailscaleIP hostname =
      (⟨200, .status "updated"⟩,
       { state with
         nodes := state.nodes.insert uuid
           { UUID := node.UUID, Name := node.Name,
             NodeType := if nodeType ≠ "" then nodeType else node.NodeType,
             TailscaleIP := if tailscaleIP ≠ "" then some tailscaleIP else node.TailscaleIP,
             ActualHostname := if hostname ≠ "" then some hostname else node.ActualHostname } }) := by
  simp only [updateHandler, h, hnode, if_false]
  by_cases h1 : nodeType = "" <;> by_cases h2 : tailscaleIP = "" <;>
    by_cases h3 : hostname = "" <;> simp [h1, h2, h3]

theorem updateHandler_unseen (state : AppState) (uuid nodeType tailscaleIP hostname : String)
    (h : uuid ≠ "") (hnode : state.nodes.lookup uuid = none) :
    updateHandler state uuid nodeType tailscaleIP hostname =
      (⟨200, .status "created"⟩,
       { state with
         nodes := state.nodes.insert uuid
           { UUID := uuid, Name := uuid, NodeType := nodeType,
             TailscaleIP := if tailscaleIP ≠ "" then some tailscaleIP else none,
             ActualHostname := if hostname ≠ "" then some hostname else none } }) := by
  simp only [updateHandler, h, hnode, if_false]
  by_cases h2 : tailscaleIP = "" <;> by_cases h3 : hostname = "" <;> simp [h2, h3]

/-- The register handler changes nothing but the map. -/
theorem registerHandler_frame (state : AppState) (instanceUUID nodeName : String)
    (mint : Except String String) :
    (registerHandler state instanceUUID nodeName mint).2.sharedKey = state.sharedKey ∧
    (registerHandler state instanceUUID nodeName mint).2.ServerUrl = state.ServerUrl ∧
    (registerHandler state instanceUUID nodeName mint).2.config = state.config := by
  by_cases h : instanceUUID = ""
  · subst h; simp [registerHandler_empty]
  · cases mint with
    | error e => simp [registerHandler_error _ _ _ _ h]
    | ok key => simp [registerHandler_ok _ _ _ _ h]

/-- The update handler changes nothing but the map. -/
theorem updateHandler_frame (state : AppState) (uuid nodeType tailscaleIP hostname : String) :
    (updateHandler state uuid nodeType tailscaleIP hostname).2.sharedKey = state.sharedKey ∧
    (updateHandler state uuid nodeType tailscaleIP hostname).2.ServerUrl = state.ServerUrl ∧
    (updateHandler state uuid nodeType tailscaleIP hostname).2.config = state.config := by
  by_cases h : uuid = ""
  · subst h; simp [updateHandler_empty]
  · cases hnode : state.nodes.lookup uuid with
    | none => simp [updateHandler_unseen _ _ _ _ _ h hnode]
    | some node => simp [updateHandler_existing _ _ _ _ _ node h hnode]

/-- The secret, the URL and the configuration fixed at startup never change. -/
theorem Reachable.frame {init state : AppState} (hr : Reachable init state) :
    state.sharedKey = init.sharedKey ∧ state.ServerUrl = init.ServerUrl ∧
      state.config = init.config := by
  induction hr with
  | start => exact ⟨rfl, rfl, rfl⟩
  | register st id name mint _ ih =>
    obtain ⟨h1, h2, h3⟩ := registerHandler_frame st id name mint
    exact ⟨h1.trans ih.1, h2.trans ih.2.1, h3.trans ih.2.2⟩
  | update st id ty ip host _ ih =>
    obtain ⟨h1, h2, h3⟩ := updateHandler_frame st id ty ip host
    exact ⟨h1.trans ih.1, h2.trans ih.2.1, h3.trans ih.2.2⟩

/-! ## C1: sticky fields of an update -/

/-- C1. An update call on a node id `u` that the registry already contains (the call passes the
id check, so `u` is non-empty) answers 200 `updated` and leaves under `u` a descriptor whose
role, overlay address and hostname are the supplied value when that value is non-empty and the
stored value otherwise, with the id and the display name unchanged. -/
theorem update_existing_sticky (state : AppState) (u nodeType tailscaleIP hostname : String)
    (node : NodeInfo) (hu : u ≠ "") (hnode : state.nodes.lookup u = some node) :
    (updateHandler state u nodeType tailscaleIP hostname).1 = ⟨200, .status "updated"⟩ ∧
    (updateHandler state u nodeType tailscaleIP hostname).2.nodes.lookup u = some
      { UUID := node.UUID, Name := node.Name,
        NodeType := if nodeType ≠ "" then nodeType else node.NodeType,
        TailscaleIP := if tailscaleIP ≠ "" then some tailscaleIP else node.TailscaleIP,
        ActualHostname := if hostname ≠ "" then some hostname else node.ActualHostname } := by
  rw [updateHandler_existing state u nodeType tailscaleIP hostname node hu hnode]
  exact ⟨rfl, AList.lookup_insert _⟩

/-- C1 at the scenario: the hostname `h1` and the role `etcd` survive an update that supplies
only the overlay address. -/
theorem update_existing_sticky_witness :
    ("abc123" ≠ "" ∧
      scenarioUpdated.nodes.lookup "abc123" = some ⟨"abc123", "worker1", "etcd", none, some "h1"⟩) ∧
    (updateHandler scenarioUpdated "abc123" "" "100.64.0.5" "").2.nodes.lookup "abc123" =
      some ⟨"abc123", "worker1", "etcd", some "100.64.0.5", some "h1"⟩ :=
  ⟨⟨by decide, by decide⟩,
   (update_existing_sticky scenarioUpdated "abc123" "" "100.64.0.5" ""
      ⟨"abc123", "worker1", "etcd", none, some "h1"⟩ (by decide) (by decide)).2⟩

/-! ## C2: what a repeated registration does to the learned fields -/

/-- C2, refuted at the scenario.  The registry holds `abc123` with role `etcd`, overlay address
`100.64.0.5` and hostname `h1`; registering `abc123` again succeeds with 200 and leaves under
`abc123` a descriptor with empty role and no address or hostname, so none of the three fields
kept its value. -/
theorem reregister_resets_counterexample :
    scenarioJoined.nodes.lookup "abc123" =
      some ⟨"abc123", "worker1", "etcd", some "100.64.0.5", some "h1"⟩ ∧
    (registerHandler scenarioJoined "abc123" "worker1" (.ok "k-2")).1 =
      ⟨200, .bootstrap ⟨"k-2", "S", "https://cp.example"⟩⟩ ∧
    (registerHandler scenarioJoined "abc123" "worker1" (.ok "k-2")).2.nodes.lookup "abc123" =
      some ⟨"abc123", "worker1", "", none, none⟩ ∧
    ¬ (((registerHandler scenarioJoined "abc123" "worker1" (.ok "k-2")).2.nodes.lookup
          "abc123").map NodeInfo.NodeType =
        (scenarioJoined.nodes.lookup "abc123").map NodeInfo.NodeType) ∧
    ¬ (((registerHandler scenarioJoined "abc123" "worker1" (.ok "k-2")).2.nodes.lookup
          "abc123").map NodeInfo.TailscaleIP =
        (scenarioJoined.nodes.lookup "abc123").map NodeInfo.TailscaleIP) ∧
    ¬ (((registerHandler scenarioJoined "abc123" "worker1" (.ok "k-2")).2.nodes.lookup
          "abc123").map NodeInfo.ActualHostname =
        (scenarioJoined.nodes.lookup "abc123").map NodeInfo.ActualHostname) := by
  decide

/-- C2 as amended.  A successful register call on `u` stores a fresh descriptor under `u`,
whatever the registry held before: the role is empty and the overlay address and the hostname
are absent (the name is the supplied one, or `node-` followed by the id when none is supplied),
and the descriptor of every other id is as before the call. -/
theorem reregister_replaces (state : AppState) (u nodeName key : String) (hu : u ≠ "") :
    (registerHandler state u nodeName (.ok key)).2.nodes.lookup u = some
      { UUID := u, Name := if nodeName = "" then "node-" ++ u else nodeName,
        NodeType := "", TailscaleIP := none, ActualHostname := none } ∧
    ∀ v : String, v ≠ u →
      (registerHandler state u nodeName (.ok key)).2.nodes.lookup v = state.nodes.lookup v := by
  rw [registerHandler_ok state u nodeName key hu]
  exact ⟨AList.lookup_insert _, fun v hv => AList.lookup_insert_ne hv⟩

/-- C2 as amended, at the scenario state that already holds `abc123` with learned fields. -/
theorem reregister_replaces_witness :
    "abc123" ≠ "" ∧
    (registerHandler scenarioJoined "abc123" "" (.ok "k-2")).2.nodes.lookup "abc123" =
      some ⟨"abc123", "node-abc123", "", none, none⟩ :=
  ⟨by decide, (reregister_replaces scenarioJoined "abc123" "" "k-2" (by decide)).1⟩

/-! ## C4: outcome of a registration -/

/-- C4. In every state `state` reached from the startup state `init`: with an empty instance
id the register handler answers 400 and leaves the state as it is; with a non-empty id and a
failed mint it answers 500 and leaves the state as it is; otherwise it answers 200 with exactly
the minted key, the shared secret of `init` and the URL of `init`, keeps secret, URL and
configuration, and the registry then maps the id to a descriptor whose name is the supplied
name (the default `node-` followed by the id when the supplied name is empty). -/
theorem register_outcome (init state : AppState) (hr : Reachable init state)
    (instanceUUID nodeName : String) (mint : Except String String) :
    (instanceUUID = "" →
      registerHandler state instanceUUID nodeName mint =
        (⟨400, .error "Missing required parameters"⟩, state)) ∧
    (instanceUUID ≠ "" → ∀ e : String, mint = .error e →
      registerHandler state instanceUUID nodeName mint =
        (⟨500, .error "Failed to generate pre-auth key"⟩, state)) ∧
    (instanceUUID ≠ "" → ∀ key : String, mint = .ok key →
      (registerHandler state instanceUUID nodeName mint).1 =
        ⟨200, .bootstrap ⟨key, init.sharedKey, init.ServerUrl⟩⟩ ∧
      (registerHandler state instanceUUID nodeName mint).2.sharedKey = init.sharedKey ∧
      (registerHandler state instanceUUID nodeName mint).2.ServerUrl = init.ServerUrl ∧
      (registerHandler state instanceUUID nodeName mint).2.config = init.config ∧
      (registerHandler state instanceUUID nodeName mint).2.nodes.lookup instanceUUID = some
        { UUID := instanceUUID,
          Name := if nodeName = "" then "node-" ++ instanceUUID else nodeName,
          NodeType := "", TailscaleIP := none, ActualHostname := none } ∧
      (nodeName ≠ "" →
        ((registerHandler state instanceUUID nodeName mint).2.nodes.lookup instanceUUID).map
          NodeInfo.Name = some nodeName)) := by
  obtain ⟨hk, hurl, hcfg⟩ := hr.frame
  refine ⟨?_, ?_, ?_⟩
  · intro h
    subst h
    exact registerHandler_empty state nodeName mint
  · intro h e he
    subst he
    exact registerHandler_error state instanceUUID nodeName e h
  · intro h key hkey
    subst hkey
    rw [registerHandler_ok state instanceUUID nodeName key h]
    refine ⟨by simp [hk, hurl], hk, hurl, hcfg, AList.lookup_insert _, ?_⟩
    intro hn
    simp [AList.lookup_insert, hn]

/-- C4 at the scenario of the spec: `instance_id=abc123`, `node_name=worker1`, key `k-1`,
secret `S`, URL `https://cp.example`. -/
theorem register_outcome_witness :
    Reachable scenarioStart scenarioStart ∧
    (registerHandler scenarioStart "abc123" "worker1" (.ok "k-1")).1 =
      ⟨200, .bootstrap ⟨"k-1", "S", "https://cp.example"⟩⟩ ∧
    (registerHandler scenarioStart "abc123" "worker1" (.ok "k-1")).2.nodes.lookup "abc123" =
      some ⟨"abc123", "worker1", "", none, none⟩ :=
  have h := (register_outcome scenarioStart scenarioStart Reachable.start "abc123" "worker1"
    (.ok "k-1")).2.2 (by decide) "k-1" rfl
  ⟨Reachable.start, h.1, h.2.2.2.2.1⟩

/-! ## C8: created versus updated -/

/-- C8. With an empty node id the update handler answers 400 and leaves the state as it is.
Otherwise it answers 200, with status `created` exactly when the id was not in the registry
and status `updated` exactly when it was; in the created case the new descriptor carries the
supplied role, and has an overlay address (a hostname) exactly when the parameter is
non-empty, which is then that parameter. -/
theorem update_created_or_updated (state : AppState)
    (uuid nodeType tailscaleIP hostname : String) :
    (uuid = "" →
      updateHandler state uuid nodeType tailscaleIP hostname =
        (⟨400, .error "uuid parameter is required"⟩, state)) ∧
    (uuid ≠ "" →
      (updateHandler state uuid nodeType tailscaleIP hostname).1.code = 200 ∧
      ((updateHandler state uuid nodeType tailscaleIP hostname).1.body = .status "created" ↔
        uuid ∉ state.nodes) ∧
      ((updateHandler state uuid nodeType tailscaleIP hostname).1.body = .status "updated" ↔
        uuid ∈ state.nodes) ∧
      (uuid ∉ state.nodes →
        ∃ node : NodeInfo,
          (updateHandler state uuid nodeType tailscaleIP hostname).2.nodes.lookup uuid =
            some node ∧
          node.UUID = uuid ∧ node.NodeType = nodeType ∧
          (node.TailscaleIP.isSome ↔ tailscaleIP ≠ "") ∧
          (tailscaleIP ≠ "" → node.TailscaleIP = some tailscaleIP) ∧
          (node.ActualHostname.isSome ↔ hostname ≠ "") ∧
          (hostname ≠ "" → node.ActualHostname = some hostname))) := by
  refine ⟨?_, ?_⟩
  · intro h
    subst h
    exact updateHandler_empty state nodeType tailscaleIP hostname
  · intro h
    cases hnode : state.nodes.lookup uuid with
    | none =>
      have hmem : uuid ∉ state.nodes := AList.lookup_eq_none.mp hnode
      rw [updateHandler_unseen state uuid nodeType tailscaleIP hostname h hnode]
      refine ⟨rfl, ?_, ?_, ?_⟩
      · simp [hmem]
      · simp [hmem]
      · intro _
        refine ⟨_, AList.lookup_insert _, rfl, rfl, ?_, ?_, ?_, ?_⟩
        · by_cases h2 : tailscaleIP = "" <;> simp [h2]
        · intro h2; simp [h2]
        · by_cases h3 : hostname = "" <;> simp [h3]
        · intro h3; simp [h3]
    | some node =>
      have hmem : uuid ∈ state.nodes := by
        rw [← AList.lookup_isSome, hnode]; rfl
      rw [updateHandler_existing state uuid nodeType tailscaleIP hostname node h hnode]
      refine ⟨rfl, ?_, ?_, ?_⟩
      · simp [hmem]
      · simp [hmem]
      · intro hn
        exact absurd hmem hn

/-- C8 at the scenario: an update of the unseen id `n7` creates it, and an update of the
registered id `abc123` reports `updated`. -/
theorem update_created_or_updated_witness :
    (updateHandler scenarioRegistered "n7" "app" "" "h7").1 = ⟨200, .status "created"⟩ ∧
    (updateHandler scenarioRegistered "n7" "app" "" "h7").2.nodes.lookup "n7" =
      some ⟨"n7", "n7", "app", none, some "h7"⟩ ∧
    (updateHandler scenarioRegistered "abc123" "etcd" "" "h1").1 = ⟨200, .status "updated"⟩ ∧
    ("n7" ∉ scenarioRegistered.nodes ↔
      (updateHandler scenarioRegistered "n7" "app" "" "h7").1.body = .status "created") :=
  ⟨by decide, by decide, by decide,
   ((update_created_or_updated scenarioRegistered "n7" "app" "" "h7").2 (by decide)).2.1.symm⟩

/-! ## C6: caller admission -/

theorem parseAllowedAppsLoop_eq (apps result : List String) :
    parseAllowedAppsLoop apps result =
      result ++ (apps.map strings.TrimSpace).filter (fun t => decide (t ≠ "")) := by
  induction apps generalizing result with
  | nil => simp [parseAllowedAppsLoop]
  | cons app apps ih =>
    by_cases h : strings.TrimSpace app = ""
    · simp [parseAllowedAppsLoop, h, ih]
    · simp [parseAllowedAppsLoop, h, ih]

/-- The parsed allow-list is the list of trimmed non-empty pieces, in their order. -/
theorem parseAllowedApps_eq (allowedApps : String) :
    parseAllowedApps allowedApps =
      ((strings.Split allowedApps ',').map strings.TrimSpace).filter
        (fun t => decide (t ≠ "")) := by
  by_cases h1 : allowedApps = ""
  · subst h1; decide
  · by_cases h2 : allowedApps = "any"
    · subst h2; decide
    · simp only [parseAllowedApps, h1, h2, if_false]
      rw [parseAllowedAppsLoop_eq]
      simp

theorem isAppAllowedLoop_iff (appID : String) (allowedApps : List String) :
    isAppAllowedLoop appID allowedApps = true ↔
      ∃ allowed ∈ allowedApps, allowed = "any" ∨ allowed = appID := by
  induction allowedApps with
  | nil => simp [isAppAllowedLoop]
  | cons a rest ih =>
    by_cases h : a = "any" ∨ a = appID
    · simp [isAppAllowedLoop, h]
    · simp [isAppAllowedLoop, h, ih]

/-- Admission by the allow-list built from the configuration string `s`. -/
theorem isAppAllowed_newAppState_iff (s sharedKey serverUrl appID : String) :
    isAppAllowed (newAppState s sharedKey serverUrl) appID = true ↔
      ∃ piece ∈ strings.Split s ',', strings.TrimSpace piece ≠ "" ∧
        (strings.TrimSpace piece = appID ∨ strings.TrimSpace piece = "any") := by
  unfold isAppAllowed newAppState
  rw [isAppAllowedLoop_iff]
  simp only [parseAllowedApps_eq, List.mem_filter, List.mem_map, decide_eq_true_eq]
  constructor
  · rintro ⟨allowed, ⟨⟨piece, hp, rfl⟩, hne⟩, hor⟩
    exact ⟨piece, hp, hne, hor.symm⟩
  · rintro ⟨piece, hp, hne, hor⟩
    exact ⟨strings.TrimSpace piece, ⟨⟨piece, hp, rfl⟩, hne⟩, hor.symm⟩

/-- C6. For the state built at startup from the allow-list configuration string `s`, a request
with path `path` and caller-identity header `appID` passes the middleware when the path is
`/health`; otherwise it is rejected with 401 when the header is empty; otherwise it passes
exactly when some comma-separated piece of `s`, trimmed, is non-empty and equals the header or
the wildcard `any`, and is rejected with 403 in every other case.  With the empty configuration
every non-health request that carries an identity gets 403, and `parseAllowedApps` returns the
trimmed non-empty pieces of `s` in their order. -/
theorem caller_admission (s sharedKey serverUrl path appID : String) :
    (path = "/health" →
      authMiddleware (newAppState s sharedKey serverUrl) path appID = .next) ∧
    (path ≠ "/health" → appID = "" →
      authMiddleware (newAppState s sharedKey serverUrl) path appID =
        .abort ⟨401, .error "Unauthorized"⟩) ∧
    (path ≠ "/health" → appID ≠ "" →
      (authMiddleware (newAppState s sharedKey serverUrl) path appID = .next ↔
        ∃ piece ∈ strings.Split s ',', strings.TrimSpace piece ≠ "" ∧
          (strings.TrimSpace piece = appID ∨ strings.TrimSpace piece = "any")) ∧
      ((¬ ∃ piece ∈ strings.Split s ',', strings.TrimSpace piece ≠ "" ∧
          (strings.TrimSpace piece = appID ∨ strings.TrimSpace piece = "any")) →
        authMiddleware (newAppState s sharedKey serverUrl) path appID =
          .abort ⟨403, .error "Forbidden"⟩)) ∧
    (s = "" → path ≠ "/health" → appID ≠ "" →
      authMiddleware (newAppState s sharedKey serverUrl) path appID =
        .abort ⟨403, .error "Forbidden"⟩) ∧
    parseAllowedApps s =
      ((strings.Split s ',').map strings.TrimSpace).filter (fun t => decide (t ≠ "")) := by
  refine ⟨?_, ?_, ?_, ?_, parseAllowedApps_eq s⟩
  · intro hp
    simp [authMiddleware, hp]
  · intro hp ha
    simp [authMiddleware, hp, ha]
  · intro hp ha
    have hiff := isAppAllowed_newAppState_iff s sharedKey serverUrl appID
    cases hallowed : isAppAllowed (newAppState s sharedKey serverUrl) appID with
    | true =>
      have hex := hiff.mp hallowed
      refine ⟨?_, fun hno => absurd hex hno⟩
      simp [authMiddleware, hp, ha, hallowed, hex]
    | false =>
      have hno : ¬ ∃ piece ∈ strings.Split s ',', strings.TrimSpace piece ≠ "" ∧
          (strings.TrimSpace piece = appID ∨ strings.TrimSpace piece = "any") := by
        intro hex
        rw [hiff.mpr hex] at hallowed
        exact Bool.noConfusion hallowed
      refine ⟨?_, fun _ => ?_⟩
      · simp [authMiddleware, hp, ha, hallowed, hno]
      · simp [authMiddleware, hp, ha, hallowed]
  · intro hs hp ha
    subst hs
    have hallowed : isAppAllowed (newAppState "" sharedKey serverUrl) appID = false := by
      simp [isAppAllowed, newAppState, parseAllowedApps, isAppAllowedLoop]
    simp [authMiddleware, hp, ha, hallowed]

/-- C6 on concrete requests against the allow-list configuration ` app1 ,, app2 `. -/
theorem caller_admission_witness :
    parseAllowedApps " app1 ,, app2 " = ["app1", "app2"] ∧
    authMiddleware (newAppState " app1 ,, app2 " "S" "u") "/api/nodes" "app2" = .next ∧
    authMiddleware (newAppState " app1 ,, app2 " "S" "u") "/api/nodes" "app3" =
      .abort ⟨403, .error "Forbidden"⟩ ∧
    authMiddleware (newAppState " app1 ,, app2 " "S" "u") "/api/nodes" "" =
      .abort ⟨401, .error "Unauthorized"⟩ ∧
    authMiddleware (newAppState "" "S" "u") "/api/nodes" "app1" =
      .abort ⟨403, .error "Forbidden"⟩ ∧
    authMiddleware (newAppState "x, any" "S" "u") "/api/nodes" "app3" = .next ∧
    authMiddleware (newAppState "" "S" "u") "/health" "" = .next :=
  ⟨by decide, by decide, by decide, by decide,
   (caller_admission "" "S" "u" "/api/nodes" "app1").2.2.2.1 rfl (by decide) (by decide),
   by decide, by decide⟩

/-! ## C3: discovery -/

theorem isEtcdWithHostname_iff (node : NodeInfo) :
    isEtcdWithHostname node = true ↔
      node.NodeType = "etcd" ∧ ∃ h : String, node.ActualHostname = some h ∧ h ≠ "" := by
  unfold isEtcdWithHostname
  cases hh : node.ActualHostname with
  | none => simp
  | some h => simp

theorem discoverEtcdLoop_eq (order : List NodeInfo) (etcdNodes : List String) :
    discoverEtcdLoop order etcdNodes =
      etcdNodes ++ (order.filter isEtcdWithHostname).map etcdHost := by
  induction order generalizing etcdNodes with
  | nil => simp [discoverEtcdLoop]
  | cons node rest ih =>
    by_cases ht : node.NodeType = "etcd"
    · cases hh : node.ActualHostname with
      | none => simp [discoverEtcdLoop, isEtcdWithHostname, ht, hh, ih]
      | some h =>
        by_cases he : h = ""
        · simp [discoverEtcdLoop, isEtcdWithHostname, ht, hh, he, ih]
        · simp [discoverEtcdLoop, isEtcdWithHostname, etcdHost, ht, hh, he, ih]
    · simp [discoverEtcdLoop, isEtcdWithHostname, ht, ih]

/-- C3. Whatever order the map iteration yields, the discovery handler answers 404 exactly when
no stored node has role `etcd` together with a present, non-empty hostname; otherwise it answers
200 with a host list that is a permutation of the strings hostname followed by `:2379` taken
over exactly those nodes, and a count equal to the length of that list. -/
theorem discovery_exact (state : AppState) (order : List NodeInfo)
    (horder : IsRange state.nodes order) :
    ((discoverEtcdHandler order).code = 404 ↔
      ∀ node ∈ storedNodes state.nodes,
        ¬ (node.NodeType = "etcd" ∧ ∃ h : String, node.ActualHostname = some h ∧ h ≠ "")) ∧
    ((discoverEtcdHandler order).code = 404 →
      discoverEtcdHandler order = ⟨404, .error "No etcd nodes found"⟩) ∧
    ((discoverEtcdHandler order).code ≠ 404 →
      ∃ hosts : List String,
        discoverEtcdHandler order = ⟨200, .etcdHosts hosts hosts.length⟩ ∧
        hosts.Perm (((storedNodes state.nodes).filter isEtcdWithHostname).map etcdHost)) := by
  have hloop : discoverEtcdLoop order [] = (order.filter isEtcdWithHostname).map etcdHost := by
    rw [discoverEtcdLoop_eq]; rfl
  have hperm : ((order.filter isEtcdWithHostname).map etcdHost).Perm
      (((storedNodes state.nodes).filter isEtcdWithHostname).map etcdHost) :=
    (horder.filter _).map _
  by_cases hnil : order.filter isEtcdWithHostname = []
  · have hresp : discoverEtcdHandler order = ⟨404, .error "No etcd nodes found"⟩ := by
      simp [discoverEtcdHandler, hloop, hnil]
    refine ⟨?_, fun _ => hresp, fun hne => absurd (by rw [hresp]) hne⟩
    rw [hresp]
    refine ⟨fun _ node hnode hcond => ?_, fun _ => rfl⟩
    have hmem : node ∈ order.filter isEtcdWithHostname :=
      List.mem_filter.mpr ⟨horder.mem_iff.mpr hnode, (isEtcdWithHostname_iff node).mpr hcond⟩
    rw [hnil] at hmem
    exact absurd hmem (List.not_mem_nil _)
  · have hlen : ((order.filter isEtcdWithHostname).map etcdHost).length ≠ 0 := by
      simpa using hnil
    have hresp : discoverEtcdHandler order =
        ⟨200, .etcdHosts ((order.filter isEtcdWithHostname).map etcdHost)
          ((order.filter isEtcdWithHostname).map etcdHost).length⟩ := by
      simp only [discoverEtcdHandler, hloop, hlen, if_false]
    refine ⟨?_, fun h => ?_, fun _ => ⟨_, hresp, hperm⟩⟩
    · rw [hresp]
      refine ⟨fun h => absurd h (by simp), fun hall => absurd ?_ hnil⟩
      refine List.filter_eq_nil_iff.mpr fun node hnode hcond => ?_
      exact hall node (horder.mem_iff.mp hnode) ((isEtcdWithHostname_iff node).mp hcond)
    · rw [hresp] at h
      exact absurd h (by simp)

/-- C3 at the scenario of the spec: after registering `abc123` and updating it with role `etcd`
and hostname `h1`, discovery answers 200 with `h1:2379` and count 1; on the empty registry it
answers 404; a node with role `etcd` and no hostname is not reported. -/
theorem discovery_exact_witness :
    IsRange scenarioUpdated.nodes [⟨"abc123", "worker1", "etcd", none, some "h1"⟩] ∧
    discoverEtcdHandler [⟨"abc123", "worker1", "etcd", none, some "h1"⟩] =
      ⟨200, .etcdHosts ["h1:2379"] 1⟩ ∧
    discoverEtcdHandler (storedNodes scenarioStart.nodes) =
      ⟨404, .error "No etcd nodes found"⟩ ∧
    discoverEtcdHandler (storedNodes (updateHandler scenarioRegistered "abc123" "etcd" "" "").2.nodes) =
      ⟨404, .error "No etcd nodes found"⟩ ∧
    ((discoverEtcdHandler [⟨"abc123", "worker1", "etcd", none, some "h1"⟩]).code ≠ 404 →
      ∃ hosts : List String,
        discoverEtcdHandler [⟨"abc123", "worker1", "etcd", none, some "h1"⟩] =
          ⟨200, .etcdHosts hosts hosts.length⟩ ∧
        hosts.Perm (((storedNodes scenarioUpdated.nodes).filter isEtcdWithHostname).map
          etcdHost)) :=
  ⟨List.Perm.refl _, by decide, by decide, by decide,
   (discovery_exact scenarioUpdated [⟨"abc123", "worker1", "etcd", none, some "h1"⟩]
      (List.Perm.refl _)).2.2⟩

/-! ## C7: ids are unique and creation is idempotent -/

theorem KeysMatch.insert {m : NodeMap} (hm : KeysMatch m) (k : String) (node : NodeInfo)
    (hk : node.UUID = k) : KeysMatch (m.insert k node) := by
  intro k' node' hlook
  by_cases h : k' = k
  · subst h
    rw [AList.lookup_insert] at hlook
    cases hlook
    exact hk
  · rw [AList.lookup_insert_ne h] at hlook
    exact hm k' node' hlook

theorem registerHandler_keysMatch (state : AppState) (instanceUUID nodeName : String)
    (mint : Except String String) (hm : KeysMatch state.nodes) :
    KeysMatch (registerHandler state instanceUUID nodeName mint).2.nodes := by
  by_cases h : instanceUUID = ""
  · subst h; rw [registerHandler_empty]; exact hm
  · cases mint with
    | error e => rw [registerHandler_error _ _ _ _ h]; exact hm
    | ok key => rw [registerHandler_ok _ _ _ _ h]; exact hm.insert _ _ rfl

theorem updateHandler_keysMatch (state : AppState) (uuid nodeType tailscaleIP hostname : String)
    (hm : KeysMatch state.nodes) :
    KeysMatch (updateHandler state uuid nodeType tailscaleIP hostname).2.nodes := by
  by_cases h : uuid = ""
  · subst h; rw [updateHandler_empty]; exact hm
  · cases hnode : state.nodes.lookup uuid with
    | none => rw [updateHandler_unseen _ _ _ _ _ h hnode]; exact hm.insert _ _ rfl
    | some node =>
      rw [updateHandler_existing _ _ _ _ _ node h hnode]
      exact hm.insert _ _ (hm uuid node hnode)

theorem Reachable.keysMatch {init state : AppState} (hr : Reachable init state)
    (hinit : KeysMatch init.nodes) : KeysMatch state.nodes := by
  induction hr with
  | start => exact hinit
  | register st id name mint _ ih => exact registerHandler_keysMatch st id name mint ih
  | update st id ty ip host _ ih => exact updateHandler_keysMatch st id ty ip host ih

theorem keysMatch_empty : KeysMatch (∅ : NodeMap) := by
  intro k node h
  rw [AList.lookup_empty] at h
  cases h

/-- When the keys match, the ids of the stored descriptors are the keys of the map. -/
theorem storedNodes_ids {m : NodeMap} (hm : KeysMatch m) :
    (storedNodes m).map NodeInfo.UUID = m.keys := by
  unfold storedNodes AList.keys List.keys
  rw [List.map_map]
  refine List.map_congr_left fun e he => ?_
  obtain ⟨k, node⟩ := e
  exact hm k node (AList.mem_lookup_iff.mpr he)

theorem listNodesLoop_eq (order nodes : List NodeInfo) :
    listNodesLoop order nodes = nodes ++ order := by
  induction order generalizing nodes with
  | nil => simp [listNodesLoop]
  | cons node rest ih => simp [listNodesLoop, ih]

theorem listNodesHandler_eq (order : List NodeInfo) :
    listNodesHandler order = ⟨200, .nodeList order order.length⟩ := by
  simp [listNodesHandler, listNodesLoop_eq]

/-- Storing under a key adds one entry when the key is new and none when it is present. -/
theorem storedNodes_insert_length (m : NodeMap) (k : String) (node : NodeInfo) :
    (storedNodes (m.insert k node)).length =
      if k ∈ m then (storedNodes m).length else (storedNodes m).length + 1 := by
  have hlen : ∀ m' : NodeMap, (storedNodes m').length = m'.keys.length := by
    intro m'
    simp [storedNodes, AList.keys, List.keys]
  rw [hlen, hlen, AList.keys_insert]
  by_cases h : k ∈ m
  · have hk : k ∈ m.keys := AList.mem_keys.mp h
    have hpos : 0 < m.keys.length := List.length_pos_of_mem hk
    simp only [h, if_true, List.length_cons, List.length_erase_of_mem hk]
    omega
  · have hk : k ∉ m.keys := fun hk => h (AList.mem_keys.mpr hk)
    simp [h, List.erase_of_not_mem hk]

/-- C7. In every state reachable from a state with the empty registry by register and update
calls, every stored descriptor carries the key it is stored under, and the listing (in whatever
order the map iteration yields) holds no id twice and reports as count the number of stored
descriptors.  A successful register call, and a successful update call, on an id already
present leaves the count of the listing unchanged, and on an unseen id raises it by one. -/
theorem registry_ids_unique (init state : AppState) (hinit : init.nodes = ∅)
    (hr : Reachable init state) :
    (∀ (k : String) (node : NodeInfo), state.nodes.lookup k = some node → node.UUID = k) ∧
    (∀ order : List NodeInfo, IsRange state.nodes order →
      listNodesHandler order = ⟨200, .nodeList order (storedNodes state.nodes).length⟩ ∧
      (order.map NodeInfo.UUID).Nodup) ∧
    (∀ (instanceUUID nodeName key : String) (order : List NodeInfo), instanceUUID ≠ "" →
      IsRange (registerHandler state instanceUUID nodeName (.ok key)).2.nodes order →
      listNodesHandler order = ⟨200, .nodeList order
        (if instanceUUID ∈ state.nodes then (storedNodes state.nodes).length
         else (storedNodes state.nodes).length + 1)⟩) ∧
    (∀ (uuid nodeType tailscaleIP hostname : String) (order : List NodeInfo), uuid ≠ "" →
      IsRange (updateHandler state uuid nodeType tailscaleIP hostname).2.nodes order →
      listNodesHandler order = ⟨200, .nodeList order
        (if uuid ∈ state.nodes then (storedNodes state.nodes).length
         else (storedNodes state.nodes).length + 1)⟩) := by
  have hkeys : KeysMatch state.nodes := hr.keysMatch (by rw [hinit]; exact keysMatch_empty)
  refine ⟨hkeys, ?_, ?_, ?_⟩
  · intro order horder
    refine ⟨by rw [listNodesHandler_eq, horder.length_eq], ?_⟩
    have hp : (order.map NodeInfo.UUID).Perm ((storedNodes state.nodes).map NodeInfo.UUID) :=
      horder.map _
    rw [storedNodes_ids hkeys] at hp
    exact hp.nodup_iff.mpr state.nodes.keys_nodup
  · intro id name key order hid horder
    rw [listNodesHandler_eq, horder.length_eq, registerHandler_ok state id name key hid]
    simp only [storedNodes_insert_length]
  · intro uuid ty ip host order huuid horder
    rw [listNodesHandler_eq, horder.length_eq]
    cases hnode : state.nodes.lookup uuid with
    | none =>
      rw [updateHandler_unseen state uuid ty ip host huuid hnode]
      simp only [storedNodes_insert_length]
    | some node =>
      rw [updateHandler_existing state uuid ty ip host node huuid hnode]
      simp only [storedNodes_insert_length]

/-- C7 at the scenario: registering `abc123` a second time keeps the count at 1, and registering
the unseen id `n7` raises it to 2. -/
theorem registry_ids_unique_witness :
    (scenarioStart.nodes = ∅ ∧ Reachable scenarioStart scenarioUpdated) ∧
    listNodesHandler (storedNodes scenarioUpdated.nodes) =
      ⟨200, .nodeList [⟨"abc123", "worker1", "etcd", none, some "h1"⟩] 1⟩ ∧
    listNodesHandler
        (storedNodes (registerHandler scenarioUpdated "abc123" "w" (.ok "k-2")).2.nodes) =
      ⟨200, .nodeList [⟨"abc123", "w", "", none, none⟩] 1⟩ ∧
    (storedNodes (registerHandler scenarioUpdated "n7" "" (.ok "k-3")).2.nodes).length = 2 ∧
    (∀ (k : String) (node : NodeInfo),
      scenarioUpdated.nodes.lookup k = some node → node.UUID = k) :=
  have hreach : Reachable scenarioStart scenarioUpdated :=
    Reachable.update _ "abc123" "etcd" "" "h1"
      (Reachable.register _ "abc123" "worker1" (.ok "k-1") Reachable.start)
  ⟨⟨rfl, hreach⟩, by decide, by decide, by decide,
   (registry_ids_unique scenarioStart scenarioUpdated rfl hreach).1⟩

/-! ## C9: resolution of the control-plane URL -/

/-- The retry loop never makes more queries than iterations remain. -/
theorem retryLoop_made_le (mesh : Mesh) (remaining i : Nat) (appID : String)
    (err : Option String) :
    (retryLoop mesh remaining i appID err).2.2 ≤ i + remaining := by
  induction remaining generalizing i appID err with
  | zero => simp [retryLoop]
  | succ n ih =>
    cases h : mesh.info i with
    | ok a => simp only [retryLoop, h]; omega
    | error e =>
      simp only [retryLoop, h]
      have := ih (i + 1) "" (some e)
      omega

/-- When every remaining identity query fails, the loop ends with an error after all of them. -/
theorem retryLoop_all_fail (mesh : Mesh) (remaining i : Nat) (appID : String)
    (err : Option String)
    (hfail : ∀ j, i ≤ j → j < i + remaining → ∃ e, mesh.info j = .error e)
    (herr : remaining = 0 → err.isSome = true) :
    ∃ (a e : String), retryLoop mesh remaining i appID err = (a, some e, i + remaining) := by
  induction remaining generalizing i appID err with
  | zero =>
    cases err with
    | none => simp at herr
    | some e => exact ⟨appID, e, rfl⟩
  | succ n ih =>
    obtain ⟨e, he⟩ := hfail i (Nat.le_refl i) (by omega)
    obtain ⟨a, e', h⟩ := ih (i + 1) "" (some e) (fun j h1 h2 => hfail j (by omega) (by omega))
      (fun _ => rfl)
    refine ⟨a, e', ?_⟩
    simp only [retryLoop, he, h]
    congr 2
    omega

/-- When query `k` is the first identity query that succeeds, the loop stops right after it. -/
theorem retryLoop_first_success (mesh : Mesh) (remaining i k : Nat) (appID id : String)
    (err : Option String) (hik : i ≤ k) (hk : k < i + remaining)
    (hfail : ∀ j, i ≤ j → j < k → ∃ e, mesh.info j = .error e)
    (hok : mesh.info k = .ok id) :
    retryLoop mesh remaining i appID err = (id, none, k + 1) := by
  induction remaining generalizing i appID err with
  | zero => omega
  | succ n ih =>
    by_cases h : i = k
    · subst h
      simp only [retryLoop, hok]
    · obtain ⟨e, he⟩ := hfail i (Nat.le_refl i) (by omega)
      simp only [retryLoop, he]
      exact ih (i + 1) "" (some e) (by omega) (by omega)
        (fun j h1 h2 => hfail j (by omega) h2)

/-- C9. With a non-empty override the result is the override and no query is sent.  Without
one: when identity query number `k` (below 30) is the first to succeed, exactly `k + 1`
identity queries are sent, followed by one gateway query, and the result is the URL built from
the template when that gateway query succeeds and the fallback when it fails; when all 30
identity queries fail, exactly 30 are sent, no gateway query, and the result is the fallback.
In every case at most 30 identity queries and at most one gateway query are sent, and the
function returns a URL: the override, the fallback or an instance of the template. -/
theorem control_plane_url (envUrl : String) (mesh : Mesh) :
    (envUrl ≠ "" → buildHeadscaleURL envUrl mesh = (envUrl, [])) ∧
    (envUrl = "" → ∀ (k : Nat) (id : String), k < 30 →
      (∀ j, j < k → ∃ e, mesh.info j = .error e) → mesh.info k = .ok id →
      (∀ gatewayDomain : String, mesh.gateway (k + 1) = .ok gatewayDomain →
        buildHeadscaleURL envUrl mesh =
          ("https://" ++ id ++ "-8080." ++ gatewayDomain,
            List.replicate (k + 1) MeshQuery.info ++ [MeshQuery.gateway])) ∧
      (∀ e : String, mesh.gateway (k + 1) = .error e →
        buildHeadscaleURL envUrl mesh =
          ("http://headscale:8080",
            List.replicate (k + 1) MeshQuery.info ++ [MeshQuery.gateway]))) ∧
    (envUrl = "" → (∀ j, j < 30 → ∃ e, mesh.info j = .error e) →
      buildHeadscaleURL envUrl mesh =
        ("http://headscale:8080", List.replicate 30 MeshQuery.info)) ∧
    (buildHeadscaleURL envUrl mesh).2.count MeshQuery.info ≤ 30 ∧
    (buildHeadscaleURL envUrl mesh).2.count MeshQuery.gateway ≤ 1 ∧
    ((buildHeadscaleURL envUrl mesh).1 = envUrl ∨
      (buildHeadscaleURL envUrl mesh).1 = "http://headscale:8080" ∨
      ∃ id gatewayDomain : String,
        (buildHeadscaleURL envUrl mesh).1 = "https://" ++ id ++ "-8080." ++ gatewayDomain) := by
  refine ⟨?_, ?_, ?_, ?_⟩
  · intro h
    simp [buildHeadscaleURL, h]
  · intro h k id hk hfail hok
    subst h
    have hloop := retryLoop_first_success mesh 30 0 k "" id none (Nat.zero_le k) (by omega)
      (fun j _ hj => hfail j hj) hok
    refine ⟨fun gd hgd => ?_, fun e he => ?_⟩
    · simp [buildHeadscaleURL, hloop, hgd]
    · simp [buildHeadscaleURL, hloop, he]
  · intro h hfail
    subst h
    obtain ⟨a, e, hloop⟩ := retryLoop_all_fail mesh 30 0 "" none
      (fun j _ hj => hfail j (by omega)) (by simp)
    simp [buildHeadscaleURL, hloop]
  · by_cases h : envUrl = ""
    · subst h
      have hle := retryLoop_made_le mesh 30 0 "" none
      rcases hres : retryLoop mesh 30 0 "" none with ⟨appID, err, made⟩
      rw [hres] at hle
      simp only [Nat.zero_add] at hle
      cases err with
      | some e =>
        simp [buildHeadscaleURL, hres, List.count_replicate]
        exact hle
      | none =>
        cases hg : mesh.gateway made with
        | ok gd =>
          simp only [buildHeadscaleURL, hres, hg]
          refine ⟨by simpa [List.count_replicate, List.count_append] using hle,
            by simp [List.count_replicate, List.count_append], Or.inr (Or.inr ⟨appID, gd, ?_⟩)⟩
          simp
        | error e =>
          simp [buildHeadscaleURL, hres, hg, List.count_replicate, List.count_append]
          exact hle
    · simp [buildHeadscaleURL, h]

/-- C9 on a metadata service whose first three identity queries fail: four identity queries
and one gateway query are sent. -/
theorem control_plane_url_witness :
    buildHeadscaleURL ""
        ⟨fun k => if k < 3 then .error "down" else .ok "app", fun _ => .ok "gw.example"⟩ =
      ("https://app-8080.gw.example",
        [MeshQuery.info, MeshQuery.info, MeshQuery.info, MeshQuery.info, MeshQuery.gateway]) ∧
    buildHeadscaleURL "https://vpc.example"
        ⟨fun _ => .ok "app", fun _ => .ok "gw.example"⟩ = ("https://vpc.example", []) ∧
    buildHeadscaleURL "" ⟨fun _ => .error "down", fun _ => .ok "gw.example"⟩ =
      ("http://headscale:8080", List.replicate 30 MeshQuery.info) :=
  ⟨by decide,
   (control_plane_url "https://vpc.example"
      ⟨fun _ => .ok "app", fun _ => .ok "gw.example"⟩).1 (by decide),
   by decide⟩

/-! ## C5: the final state of one node id -/

theorem lastSupplied_cons_getD (x : String) (xs : List String) (old : String) :
    (lastSupplied (x :: xs)).getD old =
      (lastSupplied xs).getD (if x ≠ "" then x else old) := by
  cases h : lastSupplied xs with
  | none => by_cases hx : x = "" <;> simp [lastSupplied, h, hx]
  | some y => simp [lastSupplied, h]

theorem lastSupplied_cons_or (x : String) (xs : List String) (old : Option String) :
    (lastSupplied (x :: xs)).or old =
      (lastSupplied xs).or (if x ≠ "" then some x else old) := by
  cases h : lastSupplied xs with
  | none => by_cases hx : x = "" <;> simp [lastSupplied, h, hx]
  | some y => simp [lastSupplied, h]

theorem runCalls_cons (u : String) (state : AppState) (c : Call) (rest : List Call) :
    runCalls u state (c :: rest) = runCalls u (applyCall u state c) rest := rfl

theorem runCalls_append (u : String) (state : AppState) (pre post : List Call) :
    runCalls u state (pre ++ post) = runCalls u (runCalls u state pre) post := by
  simp [runCalls, List.foldl_append]

/-- A register call that does not succeed leaves the state as it is. -/
theorem applyCall_failed_register (u : String) (state : AppState) (nodeName : String)
    (mint : Except String String) (hu : u ≠ "")
    (h : (Call.register nodeName mint).isSuccessfulRegister = false) :
    applyCall u state (.register nodeName mint) = state := by
  cases mint with
  | error e => simp [applyCall, registerHandler_error _ _ _ _ hu]
  | ok key => simp [Call.isSuccessfulRegister] at h

/-- Updates (and failed registrations) applied to a stored descriptor: each field ends as the
last non-empty value supplied for it, or as it was. -/
theorem runCalls_existing (u : String) (hu : u ≠ "") (calls : List Call) :
    ∀ (state : AppState) (node : NodeInfo), state.nodes.lookup u = some node →
      (∀ c ∈ calls, c.isSuccessfulRegister = false) →
      (runCalls u state calls).nodes.lookup u = some
        { UUID := node.UUID, Name := node.Name,
          NodeType := (lastSupplied (suppliedRoles calls)).getD node.NodeType,
          TailscaleIP := (lastSupplied (suppliedAddresses calls)).or node.TailscaleIP,
          ActualHostname := (lastSupplied (suppliedHostnames calls)).or node.ActualHostname } := by
  induction calls with
  | nil =>
    intro state node hnode _
    simpa [runCalls, suppliedRoles, suppliedAddresses, suppliedHostnames, lastSupplied]
      using hnode
  | cons c rest ih =>
    intro state node hnode hall
    have hrest : ∀ c ∈ rest, c.isSuccessfulRegister = false :=
      fun c hc => hall c (List.mem_cons_of_mem _ hc)
    rw [runCalls_cons]
    cases c with
    | register nodeName mint =>
      rw [applyCall_failed_register u state nodeName mint hu (hall _ (List.mem_cons_self _ _))]
      simpa [suppliedRoles, suppliedAddresses, suppliedHostnames] using ih state node hnode hrest
    | update nodeType tailscaleIP hostname =>
      have hstep : (applyCall u state (.update nodeType tailscaleIP hostname)).nodes.lookup u =
          some { UUID := node.UUID, Name := node.Name,
                 NodeType := if nodeType ≠ "" then nodeType else node.NodeType,
                 TailscaleIP := if tailscaleIP ≠ "" then some tailscaleIP else node.TailscaleIP,
                 ActualHostname :=
                   if hostname ≠ "" then some hostname else node.ActualHostname } := by
        simp only [applyCall]
        rw [updateHandler_existing state u nodeType tailscaleIP hostname node hu hnode]
        exact AList.lookup_insert _
      rw [ih _ _ hstep hrest]
      simp only [suppliedRoles, suppliedAddresses, suppliedHostnames, lastSupplied_cons_getD,
        lastSupplied_cons_or]

/-- Calls without a successful registration on an id the registry does not hold: the id stays
unknown until the first update, which creates it under its own id as name. -/
theorem runCalls_unseen (u : String) (hu : u ≠ "") (calls : List Call) :
    ∀ (state : AppState), state.nodes.lookup u = none →
      (∀ c ∈ calls, c.isSuccessfulRegister = false) →
      ((∀ c ∈ calls, c.isUpdate = false) → (runCalls u state calls).nodes.lookup u = none) ∧
      ((∃ c ∈ calls, c.isUpdate = true) →
        (runCalls u state calls).nodes.lookup u = some
          { UUID := u, Name := u,
            NodeType := (lastSupplied (suppliedRoles calls)).getD "",
            TailscaleIP := lastSupplied (suppliedAddresses calls),
            ActualHostname := lastSupplied (suppliedHostnames calls) }) := by
  induction calls with
  | nil =>
    intro state hnone _
    exact ⟨fun _ => hnone, fun ⟨c, hc, _⟩ => absurd hc (List.not_mem_nil c)⟩
  | cons c rest ih =>
    intro state hnone hall
    have hrest : ∀ c ∈ rest, c.isSuccessfulRegister = false :=
      fun c hc => hall c (List.mem_cons_of_mem _ hc)
    rw [runCalls_cons]
    cases c with
    | register nodeName mint =>
      rw [applyCall_failed_register u state nodeName mint hu (hall _ (List.mem_cons_self _ _))]
      obtain ⟨h1, h2⟩ := ih state hnone hrest
      refine ⟨fun hno => h1 fun c hc => hno c (List.mem_cons_of_mem _ hc), ?_⟩
      rintro ⟨c, hc, hupd⟩
      rcases List.mem_cons.mp hc with rfl | hc
      · simp [Call.isUpdate] at hupd
      · simpa [suppliedRoles, suppliedAddresses, suppliedHostnames] using h2 ⟨c, hc, hupd⟩
    | update nodeType tailscaleIP hostname =>
      refine ⟨fun hno => ?_, fun _ => ?_⟩
      · have := hno _ (List.mem_cons_self _ _)
        simp [Call.isUpdate] at this
      · have hstep : (applyCall u state (.update nodeType tailscaleIP hostname)).nodes.lookup u =
            some { UUID := u, Name := u, NodeType := nodeType,
                   TailscaleIP := if tailscaleIP ≠ "" then some tailscaleIP else none,
                   ActualHostname := if hostname ≠ "" then some hostname else none } := by
          simp only [applyCall]
          rw [updateHandler_unseen state u nodeType tailscaleIP hostname hu hnone]
          exact AList.lookup_insert _
        rw [runCalls_existing u hu rest _ _ hstep hrest]
        have hrole : (lastSupplied (suppliedRoles rest)).getD nodeType =
            (lastSupplied (nodeType :: suppliedRoles rest)).getD "" := by
          rw [lastSupplied_cons_getD]
          by_cases ht : nodeType = "" <;> simp [ht]
        have haddr : (lastSupplied (suppliedAddresses rest)).or
              (if tailscaleIP ≠ "" then some tailscaleIP else none) =
            lastSupplied (tailscaleIP :: suppliedAddresses rest) := by
          rw [← lastSupplied_cons_or]; simp
        have hhost : (lastSupplied (suppliedHostnames rest)).or
              (if hostname ≠ "" then some hostname else none) =
            lastSupplied (hostname :: suppliedHostnames rest) := by
          rw [← lastSupplied_cons_or]; simp
        simp only [suppliedRoles, suppliedAddresses, suppliedHostnames, hrole, haddr, hhost]

/-- C5, refuted.  On `abc123`, unknown at the start: (1) after two successful registrations
with names `a` and `b` the stored name is `b`, not the first supplied name `a`; (2) after an
update that supplies role, address and hostname followed by a registration, the role is empty
and address and hostname are absent, not the values of the last update that supplied them;
(3) after a lone update the name is the id itself, not `node-abc123`. -/
theorem final_state_law_counterexample :
    scenarioStart.nodes.lookup "abc123" = none ∧
    ((runCalls "abc123" scenarioStart
        [.register "a" (.ok "k-1"), .register "b" (.ok "k-2")]).nodes.lookup "abc123" =
        some ⟨"abc123", "b", "", none, none⟩ ∧
      firstSuppliedName [.register "a" (.ok "k-1"), .register "b" (.ok "k-2")] = some "a" ∧
      ¬ FinalStateLawAsStated "abc123" scenarioStart
        [.register "a" (.ok "k-1"), .register "b" (.ok "k-2")]) ∧
    ((runCalls "abc123" scenarioStart
        [.update "etcd" "100.64.0.5" "h1", .register "w" (.ok "k-1")]).nodes.lookup "abc123" =
        some ⟨"abc123", "w", "", none, none⟩ ∧
      lastSupplied (suppliedRoles [.update "etcd" "100.64.0.5" "h1", .register "w" (.ok "k-1")]) =
        some "etcd" ∧
      ¬ FinalStateLawAsStated "abc123" scenarioStart
        [.update "etcd" "100.64.0.5" "h1", .register "w" (.ok "k-1")]) ∧
    ((runCalls "abc123" scenarioStart [.update "etcd" "" "h1"]).nodes.lookup "abc123" =
        some ⟨"abc123", "abc123", "etcd", none, some "h1"⟩ ∧
      ¬ FinalStateLawAsStated "abc123" scenarioStart [.update "etcd" "" "h1"]) := by
  unfold FinalStateLawAsStated
  decide

/-- C5 as amended.  For a sequence of register and update calls on one non-empty node id `u`:
if the sequence contains a successful registration, the final name is the name given by the
last successful registration, or `node-` followed by the id when that registration supplied
none, and the final role, overlay address and hostname are each the value of the last update
after that registration that supplied a non-empty value for the field (empty role, absent
address, absent hostname when there is none).  If the registry did not contain `u` at the start
and no registration succeeds, then the id stays unknown when there is no update, and otherwise
the final name is the id itself and role, address and hostname are each the value of the last
update that supplied a non-empty value for the field. -/
theorem final_state_law (u : String) (hu : u ≠ "") (state : AppState) (calls : List Call) :
    (∀ (pre post : List Call) (nodeName key : String),
      calls = pre ++ Call.register nodeName (.ok key) :: post →
      (∀ c ∈ post, c.isSuccessfulRegister = false) →
      (runCalls u state calls).nodes.lookup u = some
        { UUID := u, Name := if nodeName = "" then "node-" ++ u else nodeName,
          NodeType := (lastSupplied (suppliedRoles post)).getD "",
          TailscaleIP := lastSupplied (suppliedAddresses post),
          ActualHostname := lastSupplied (suppliedHostnames post) }) ∧
    (state.nodes.lookup u = none → (∀ c ∈ calls, c.isSuccessfulRegister = false) →
      (∃ c ∈ calls, c.isUpdate = true) →
      (runCalls u state calls).nodes.lookup u = some
        { UUID := u, Name := u,
          NodeType := (lastSupplied (suppliedRoles calls)).getD "",
          TailscaleIP := lastSupplied (suppliedAddresses calls),
          ActualHostname := lastSupplied (suppliedHostnames calls) }) ∧
    (state.nodes.lookup u = none → (∀ c ∈ calls, c.isSuccessfulRegister = false) →
      (∀ c ∈ calls, c.isUpdate = false) →
      (runCalls u state calls).nodes.lookup u = none) := by
  refine ⟨?_, ?_, ?_⟩
  · intro pre post nodeName key hcalls hpost
    subst hcalls
    rw [runCalls_append, runCalls_cons]
    have hstep : (applyCall u (runCalls u state pre)
        (.register nodeName (.ok key))).nodes.lookup u =
        some { UUID := u, Name := if nodeName = "" then "node-" ++ u else nodeName,
               NodeType := "", TailscaleIP := none, ActualHostname := none } := by
      simp only [applyCall]
      rw [registerHandler_ok _ u nodeName key hu]
      exact AList.lookup_insert _
    rw [runCalls_existing u hu post _ _ hstep hpost]
    simp
  · intro hnew hall hupd
    exact (runCalls_unseen u hu calls state hnew hall).2 hupd
  · intro hnew hall hno
    exact (runCalls_unseen u hu calls state hnew hall).1 hno

/-- C5 as amended, on a run of four calls on `abc123`: the second registration decides the
name and clears what the first update had supplied. -/
theorem final_state_law_witness :
    "abc123" ≠ "" ∧
    (runCalls "abc123" scenarioStart
      [.register "a" (.ok "k-1"), .update "etcd" "" "h1", .register "b" (.ok "k-2"),
       .update "" "100.64.0.5" ""]).nodes.lookup "abc123" =
      some ⟨"abc123", "b", "", some "100.64.0.5", none⟩ :=
  ⟨by decide,
   (final_state_law "abc123" (by decide) scenarioStart
      [.register "a" (.ok "k-1"), .update "etcd" "" "h1", .register "b" (.ok "k-2"),
       .update "" "100.64.0.5" ""]).1
      [.register "a" (.ok "k-1"), .update "etcd" "" "h1"] [.update "" "100.64.0.5" ""]
      "b" "k-2" rfl (by decide)⟩

end VpcApiServer
